import Mathlib

/-!
Shallow embedding of the two cleanup/recovery command-line workflows
(`clean_box_folders.py`, `recover_box_files.py`) of the clean-up-box
repository, together with proofs about the properties stated in its
specification.

Remote services (the cloud-storage API, the issue tracker, the readiness
helper subprocess) are modelled as explicit inputs: each embedded function
receives the outcomes of the remote calls it would issue and returns, next
to its computed result, the list of mutating remote calls it performs.
Strings are modelled with Lean `String`/`List Char`; Python `lower`,
`strip` and case-insensitive matching are modelled at ASCII level, which
covers every constant appearing in the source.
-/

/-! ### Python string helpers -/

/-- Python `str.lower()` (ASCII): lowercase every character.  Implemented
over the character list so it evaluates in the kernel. -/
def pyLower (s : String) : String :=
  String.mk (s.toList.map Char.toLower)

/-- Python `str.startswith(pre)`, over character lists. -/
def pyStartsWith (s pre : String) : Bool :=
  s.toList.take pre.toList.length = pre.toList

/-- Python `str.endswith(suf)`, over character lists. -/
def pyEndsWith (s suf : String) : Bool :=
  s.toList.reverse.take suf.toList.length = suf.toList.reverse

/-- Python slicing `s[:-n]`: drop the last `n` characters. -/
def pyDropRight (s : String) (n : Nat) : String :=
  String.mk (s.toList.take (s.toList.length - n))

/-- Truthiness of an optional string, as Python evaluates it: `None` and
the empty string are falsy. -/
def optTruthy : Option String → Bool
  | Option.none => false
  | Option.some s => decide (s ≠ "")

/-- Does `hay` start with `pat`?  (`pat = []` always succeeds, as in
Python slicing-based checks.) -/
def startsWithList : List Char → List Char → Bool
  | _, [] => true
  | [], _ :: _ => false
  | a :: as, b :: bs => a = b && startsWithList as bs

/-- Python's substring containment `needle in hay` on lists of
characters; the empty needle is contained in everything. -/
def containsList (hay needle : List Char) : Bool :=
  match hay with
  | [] => needle.isEmpty
  | _ :: rest => startsWithList (hay) needle || containsList rest needle

/-- Python `needle in hay` on strings. -/
def pyIn (needle hay : String) : Bool :=
  containsList hay.toList needle.toList

/-- One fuel-indexed step of Python `str.replace(pat, rep)` (replace all
non-overlapping occurrences, scanning left to right).  The fuel is the
length of the haystack, which bounds the number of scanning steps, so with
`fuel = hay.length` this computes exactly Python's replace for a nonempty
pattern. -/
def replaceAllAux : Nat → List Char → List Char → List Char → List Char
  | 0, hay, _, _ => hay
  | _ + 1, [], _, _ => []
  | fuel + 1, h :: t, pat, rep =>
    if !pat.isEmpty && startsWithList (h :: t) pat then
      rep ++ replaceAllAux fuel ((h :: t).drop pat.length) pat rep
    else
      h :: replaceAllAux fuel t pat rep

/-- Python `hay.replace(pat, rep)` for a nonempty pattern. -/
def pyReplace (hay pat rep : String) : String :=
  String.mk (replaceAllAux hay.toList.length hay.toList pat.toList rep.toList)

/-- Python `str.strip()` (ASCII whitespace): drop leading and trailing
whitespace.  Implemented structurally so it evaluates in the kernel. -/
def pyStrip (s : String) : String :=
  String.mk (((s.toList.dropWhile Char.isWhitespace).reverse.dropWhile
    Char.isWhitespace).reverse)

/-! ### File classification (`clean_box_folders.py`, lines 69-90 and
321-377)

`classify_files_recursive` buckets each file by the extension of its
lowercased name: extensions in `DATA_FILE_EXTENSIONS` go to the data
(deletable) list, extensions in `DOCUMENT_EXTENSIONS` and every other
extension go to the document (retained) list.  The per-file decision is
embedded here; the folder walk only applies it to each file it visits. -/

/-- `DATA_FILE_EXTENSIONS` from the source. -/
def DATA_FILE_EXTENSIONS : List String :=
  [".csv", ".dta", ".zip", ".gz", ".tar", ".7z", ".rar",
   ".sas7bdat", ".sas7bcat", ".sd2", ".xpt",
   ".rds", ".rdata", ".rda",
   ".mat",
   ".pkl", ".pickle",
   ".parquet", ".feather",
   ".db", ".sqlite", ".sql",
   ".json", ".jsonl", ".ndjson",
   ".xml",
   ".hdf5", ".h5",
   ".nc", ".nc4",
   ".sav", ".por",
   ".xlsx", ".xls"]

/-- `DOCUMENT_EXTENSIONS` from the source. -/
def DOCUMENT_EXTENSIONS : List String :=
  [".pdf", ".docx", ".doc", ".txt", ".md", ".rtf",
   ".tex", ".bib", ".log", ".aux",
   ".odt", ".ods",
   ".pptx", ".ppt"]

/-- Index of the last occurrence of `c` in `l`, if any (Python
`str.rfind`). -/
def lastIdxOf (c : Char) (l : List Char) : Option Nat :=
  ((List.range l.length).filter (fun i => l.get? i = some c)).getLast?

/-- The extension part of `os.path.splitext` (posix rules): the suffix
starting at the last dot that lies after the last path separator,
provided at least one character of the basename before that dot is not a
dot (so purely dotted leading runs such as `.bashrc` have no
extension). -/
def splitextExt (p : List Char) : List Char :=
  let sepIdx : Int := match lastIdxOf '/' p with
    | some i => (i : Int)
    | none => -1
  let dotIdx : Int := match lastIdxOf '.' p with
    | some i => (i : Int)
    | none => -1
  if dotIdx > sepIdx then
    let nameStart : Nat := (sepIdx + 1).toNat
    let hasNonDot := (List.range p.length).any (fun i =>
      decide (nameStart ≤ i ∧ (i : Int) < dotIdx ∧ p.get? i ≠ some '.'))
    if hasNonDot then p.drop dotIdx.toNat else []
  else []

/-- The lowercased extension of a file name, as computed by
`os.path.splitext(item.name.lower())` in the classifier. -/
def lowerExt (name : String) : String :=
  String.mk (splitextExt (pyLower name).toList)

/-- Classification outcome for one file. -/
inductive FileClass where
  | data
  | document
  deriving DecidableEq, Repr

/-- The classification branch of `classify_files_recursive`: data
extensions are deletable, document extensions are retained, and every
unknown extension is retained ("log it but don't delete"). -/
def classify_extension (ext : String) : FileClass :=
  if ext ∈ DATA_FILE_EXTENSIONS then FileClass.data
  else if ext ∈ DOCUMENT_EXTENSIONS then FileClass.document
  else FileClass.document

/-- Classification of a file by its name, as the classifier applies it to
each file item it visits. -/
def classify_file (name : String) : FileClass :=
  classify_extension (lowerExt name)

/-! ### Case-folder discovery (`clean_box_folders.py`, lines 220-262)

`find_case_folders` keeps the child folders whose name matches the Python
regex `^aearep-(\d+)$` with `re.IGNORECASE`, optionally filters by one
requested case number, and sorts the matches by `int` of the captured
digit group.  Note that in Python the `$` anchor also matches just before
a single newline at the end of the string, so the regex additionally
accepts names carrying one trailing newline. -/

/-- Matching `re.compile(r'^aearep-(\d+)$', re.IGNORECASE).match(name)`:
returns the captured digit group on success.  The seven pattern literals
are compared case-insensitively; `\d+` must then reach the end of the
string or the position just before a single final newline. -/
def match_case_folder (name : String) : Option String :=
  let l := name.toList
  if (l.take 7).map Char.toLower = "aearep-".toList then
    let rest := l.drop 7
    let ds := rest.takeWhile Char.isDigit
    let tl := rest.dropWhile Char.isDigit
    if ds = [] then none
    else if tl = [] ∨ tl = ['\n'] then some (String.mk ds)
    else none
  else none

/-- Modelled after the spec's words ("strings of the form
`<prefix>-<digits>` with a case-insensitive prefix"): the acceptance
predicate the specification describes, used to compare the source's
matcher against it. -/
def spec_case_accepts (name : String) : Bool :=
  decide ((name.toList.take 7).map Char.toLower = "aearep-".toList)
  && !(name.toList.drop 7).isEmpty
  && (name.toList.drop 7).all Char.isDigit

/-- The spec-side shape `<prefix>-<digits>` with captured digits `ds`. -/
def SpecCaseName (name ds : String) : Prop :=
  (name.toList.take 7).map Char.toLower = "aearep-".toList
  ∧ name.toList.drop 7 = ds.toList
  ∧ ds.toList ≠ [] ∧ ds.toList.all Char.isDigit

/-- The same shape followed by one trailing newline, which the Python `$`
anchor also accepts. -/
def SpecCaseNameNl (name ds : String) : Prop :=
  (name.toList.take 7).map Char.toLower = "aearep-".toList
  ∧ name.toList.drop 7 = ds.toList ++ ['\n']
  ∧ ds.toList ≠ [] ∧ ds.toList.all Char.isDigit

/-- Python `int` on the captured digit group. -/
def digitsToNat (s : String) : Nat :=
  s.toList.foldl (fun acc c => acc * 10 + (c.toNat - 48)) 0

/-- A child item of the root folder as returned by the storage listing. -/
structure BoxItem where
  id : String
  name : String
  ty : String
  deriving DecidableEq, Repr

/-- Sort key of `case_folders.sort(key=lambda x: int(x[2]))`. -/
def caseKey (t : String × String × String) : Nat := digitsToNat t.2.2

/-- Comparison used when sorting the discovered case folders. -/
def caseNumLe (a b : String × String × String) : Prop := caseKey a ≤ caseKey b

instance : DecidableRel caseNumLe := fun _ _ => Nat.decLe _ _

instance : IsTotal (String × String × String) caseNumLe :=
  ⟨fun a b => Nat.le_total (caseKey a) (caseKey b)⟩

instance : IsTrans (String × String × String) caseNumLe :=
  ⟨fun _ _ _ hab hbc => Nat.le_trans hab hbc⟩

/-- `find_case_folders`: keep the child folders whose name matches the
case pattern, drop those whose extracted number differs from a (truthy)
requested case, and sort ascending by the numeric case id.  Returns
`(folder id, folder name, case number)` triples. -/
def find_case_folders (items : List BoxItem) (specific : Option String) :
    List (String × String × String) :=
  let matched := items.filterMap (fun it =>
    if it.ty = "folder" then
      match match_case_folder it.name with
      | some cn =>
        if optTruthy specific && decide (cn ≠ specific.getD "") then none
        else some (it.id, it.name, cn)
      | none => none
    else none)
  List.insertionSort caseNumLe matched

/-! ### Readiness oracle adapter (`clean_box_folders.py`, lines 264-319)

`check_jira_purge_status` runs the external helper as a subprocess; the
embedding receives the subprocess outcome.  A missing helper script is a
fatal exit, modelled as `none`. -/

/-- Outcome of the helper subprocess invocation. -/
inductive HelperResult where
  | exited (code : Int) (stdout stderr : String)
  | timedOut
  | raised (msg : String)
  deriving DecidableEq, Repr

/-- `check_jira_purge_status`: with `--skip-jira-check` everything is
ready; otherwise a zero exit code means ready, and the explanation is the
stripped stdout, or the stripped stderr when stdout is empty (Python
truthiness of the stdout string).  A timeout or any other exception
yields not-ready.  `none` models the fatal `sys.exit(1)` taken when the
helper script does not exist. -/
def check_jira_purge_status (skipJira helperExists : Bool)
    (res : HelperResult) : Option (Bool × String) :=
  if skipJira then some (true, "Skipped (--skip-jira-check)")
  else if !helperExists then none
  else
    match res with
    | HelperResult.exited code out err =>
      some (decide (code = 0), if out = "" then pyStrip err else pyStrip out)
    | HelperResult.timedOut => some (false, "Timeout")
    | HelperResult.raised msg => some (false, msg)

/-! ### Cleanup orchestration (`clean_box_folders.py`, lines 379-547)

`delete_data_files`, `move_folder_to_completed` and
`process_case_folder`, with the run statistics and the list of mutating
remote calls made explicit. -/

/-- The `self.stats` counters of the cleanup script. -/
structure Stats where
  folders_found : Nat
  folders_checked : Nat
  folders_ready : Nat
  folders_moved : Nat
  files_deleted : Nat
  bytes_deleted : Nat
  errors : Nat
  deriving DecidableEq, Repr

/-- All counters zero. -/
def zeroStats : Stats := ⟨0, 0, 0, 0, 0, 0, 0⟩

/-- One file record of the classifier output. -/
structure FileInfo where
  id : String
  name : String
  size : Nat
  deriving DecidableEq, Repr

/-- A mutating remote call issued to the storage provider. -/
inductive MutationCall where
  | deleteFile (fileId : String)
  | moveFolder (folderId destId : String)
  deriving DecidableEq, Repr

/-- Outcome of the provider `folder.move` call in a live run. -/
inductive MoveOutcome where
  | success
  | nameInUse
  | otherError
  deriving DecidableEq, Repr

/-- The remote outcomes a live per-case pass would encounter. -/
structure CleanupEnv where
  deleteOk : String → Bool
  moveOutcome : MoveOutcome

/-- `delete_data_files`: returns `(deleted_count, deleted_bytes,
errors delta, issued calls)`.  In test mode the counters advance without
any call; in a live run each file delete is issued, a failure increments
the error counter instead of the deleted counters and the loop
continues. -/
def delete_data_files (testMode : Bool) (deleteOk : String → Bool) :
    List FileInfo → Nat × Nat × Nat × List MutationCall
  | [] => (0, 0, 0, [])
  | f :: rest =>
    let step : Nat × Nat × Nat × List MutationCall :=
      if testMode then (1, f.size, 0, [])
      else if deleteOk f.id then (1, f.size, 0, [MutationCall.deleteFile f.id])
      else (0, 0, 1, [MutationCall.deleteFile f.id])
    let r := delete_data_files testMode deleteOk rest
    (step.1 + r.1, step.2.1 + r.2.1, step.2.2.1 + r.2.2.1,
      step.2.2.2 ++ r.2.2.2)

/-- `move_folder_to_completed`: returns `(reported success, errors delta,
issued calls)`.  Test mode reports success without calling; a missing
(falsy) archive folder id reports failure without calling; otherwise the
move is issued and a name collision reports failure without counting an
error, while any other provider error reports failure and counts one. -/
def move_folder_to_completed (testMode : Bool) (mo : MoveOutcome)
    (folderId : String) (completedFolderId : Option String) :
    Bool × Nat × List MutationCall :=
  if testMode then (true, 0, [])
  else if !optTruthy completedFolderId then (false, 0, [])
  else
    let c := completedFolderId.getD ""
    match mo with
    | MoveOutcome.success => (true, 0, [MutationCall.moveFolder folderId c])
    | MoveOutcome.nameInUse => (false, 0, [MutationCall.moveFolder folderId c])
    | MoveOutcome.otherError => (false, 1, [MutationCall.moveFolder folderId c])

/-- `process_case_folder`: check readiness, then move the folder to the
archive first, and only after a reported successful move delete the
classified data files.  Returns the statistics delta of the case, the
issued mutating calls in order, and the processed flag the source
returns. -/
def process_case_folder (testMode : Bool) (env : CleanupEnv) (isReady : Bool)
    (dataFiles : List FileInfo) (folderId : String)
    (completedFolderId : Option String) : Stats × List MutationCall × Bool :=
  let s0 : Stats := { zeroStats with folders_checked := 1 }
  if !isReady then (s0, [], false)
  else
    let s1 : Stats := { s0 with folders_ready := 1 }
    let mv := move_folder_to_completed testMode env.moveOutcome folderId
      completedFolderId
    if !mv.1 then ({ s1 with errors := s1.errors + mv.2.1 }, mv.2.2, false)
    else
      let s2 : Stats :=
        { s1 with
          folders_moved := 1
          errors := s1.errors + mv.2.1 }
      match dataFiles with
      | [] => (s2, mv.2.2, true)
      | f :: rest =>
        let del := delete_data_files testMode env.deleteOk (f :: rest)
        ({ s2 with
           files_deleted := s2.files_deleted + del.1
           bytes_deleted := s2.bytes_deleted + del.2.1
           errors := s2.errors + del.2.2.1 },
         mv.2.2 ++ del.2.2.2, true)

/-! ### Jira numeric field cleaning (`recover_box_files.py`,
lines 244-267) -/

/-- The dynamic value a tracker custom field may carry. -/
inductive PyVal where
  | pyNone
  | pyFloat (q : ℚ)
  | pyStr (s : String)
  | pyInt (n : Int)
  deriving DecidableEq, Repr

/-- Python `int()` truncation toward zero on an exact (rational) float
value. -/
def pyTruncToInt (q : ℚ) : Int := Int.tdiv q.num (q.den : Int)

/-- Python `str(value)[:-2] if it ends with ".0"` applied to the string
form of a non-float value. -/
def stripDotZero (s : String) : String :=
  if pyEndsWith s ".0" then pyDropRight s 2 else s

/-- `_clean_jira_numeric_field`: `None` stays `None`; a float is
truncated to an integer and rendered; any other value is rendered as a
string and a trailing `".0"` is cut off. -/
def clean_jira_numeric_field : PyVal → Option String
  | PyVal.pyNone => none
  | PyVal.pyFloat q => some (toString (pyTruncToInt q))
  | PyVal.pyStr s => some (stripDotZero s)
  | PyVal.pyInt n => some (stripDotZero (toString n))

/-! ### Fuzzy folder-name matching (`recover_box_files.py`,
lines 531-564) -/

/-- `_matches_folder_name`: lowercase both names, then accept on direct
equality, substring containment of the expected name, the
`aearep-`-prefixed form of the expected name, or — when the expected name
itself starts with `aearep-` — its bare form with every `aearep-`
occurrence removed. -/
def matches_folder_name (itemName expectedName : String) : Bool :=
  let il := pyLower itemName
  let el := pyLower expectedName
  if il = el then true
  else if pyIn el il then true
  else if il = "aearep-" ++ el || pyIn ("aearep-" ++ el) il then true
  else if pyStartsWith el "aearep-" then
    let bare := pyReplace el "aearep-" ""
    il = bare || pyIn bare il
  else false

/-! ### Trashed-item filtering (`recover_box_files.py`, lines 432-529)

`filter_trashed_items` keeps an item only if it passes the date filter,
the user filter and the folder-association checks, in that order.  The
`datetime.fromisoformat` parse (with its timezone normalisation against
the cutoff) is library code, passed in as a `parse` function producing a
comparable instant, with `none` for an unparseable string. -/

/-- The `trashed_by` value: a truthy mapping carrying a `login` entry
(missing logins read as the empty string) or some truthy non-mapping
value, which the source treats as an empty login.  An absent, `None` or
falsy value is modelled by `Option.none` at the use site. -/
inductive TrashedBy where
  | userDict (login : String)
  | nonDict
  deriving DecidableEq, Repr

/-- One trashed item record as assembled by `get_trashed_items`.
`pathEntries` is the list of `id` values of the `path_collection`
entries (`none` for an entry without an id), or `none` when the whole
collection is absent or not a mapping. -/
structure TrashedItem where
  id : String
  name : String
  ty : String
  size : Nat
  trashedAt : Option String
  trashedBy : Option TrashedBy
  pathEntries : Option (List (Option String))
  parentId : Option String
  deriving DecidableEq, Repr

/-- The date filter: an item is dropped only when its `trashed_at` string
is truthy, parses, and the parsed instant is strictly before the cutoff;
a missing, empty or unparseable timestamp passes. -/
def passes_date_filter (parse : String → Option Int) (cutoff : Int)
    (item : TrashedItem) : Bool :=
  match item.trashedAt with
  | none => true
  | some s =>
    if s = "" then true
    else
      match parse s with
      | none => true
      | some t => decide (cutoff ≤ t)

/-- The user filter: with a truthy configured user name, an item carrying
a truthy `trashed_by` value is dropped unless the configured name is a
case-insensitive substring of the recorded login (a truthy non-mapping
value reads as an empty login); an absent or falsy `trashed_by`
passes. -/
def passes_user_filter (userFilter : String) (item : TrashedItem) : Bool :=
  if userFilter = "" then true
  else
    match item.trashedBy with
    | none => true
    | some tb =>
      let login := match tb with
        | TrashedBy.userDict l => l
        | TrashedBy.nonDict => ""
      pyIn (pyLower userFilter) (pyLower login)

/-- The folder-association checks, in the source's order: the item is the
target folder itself, its parent is the target folder, the target folder
appears in its ancestor path, or its name fuzzily matches the folder
alias; with neither a truthy folder id nor a truthy alias every item
passes. -/
def matches_folder_criteria (folderId folderName : Option String)
    (item : TrashedItem) : Bool :=
  let fidT := optTruthy folderId
  let fnT := optTruthy folderName
  let fid := folderId.getD ""
  let fn := folderName.getD ""
  (fidT && decide (item.id = fid))
  || (fidT && (match item.parentId with
      | some p => decide (p ≠ "") && decide (p = fid)
      | none => false))
  || (fidT && (match item.pathEntries with
      | some es => es.any (fun e => decide (e = some fid))
      | none => false))
  || (fnT && matches_folder_name item.name fn)
  || (!fidT && !fnT)

/-- Whether `filter_trashed_items` keeps one item: the conjunction of the
three sequential filters. -/
def keep_trashed_item (parse : String → Option Int) (cutoff : Int)
    (folderId folderName : Option String) (userFilter : String)
    (item : TrashedItem) : Bool :=
  passes_date_filter parse cutoff item
  && passes_user_filter userFilter item
  && matches_folder_criteria folderId folderName item

/-- `filter_trashed_items`. -/
def filter_trashed_items (parse : String → Option Int) (cutoff : Int)
    (folderId folderName : Option String) (userFilter : String)
    (items : List TrashedItem) : List TrashedItem :=
  items.filter (keep_trashed_item parse cutoff folderId folderName userFilter)

/-! ### Interactive confirmation (`clean_box_folders.py` lines 609-620,
`recover_box_files.py` lines 754-769) -/

/-- Whether the cleanup `run` reaches its `input(...)` prompt: only
without `--yes`, outside test mode, and with more than one discovered
case folder. -/
def cleanup_prompt_shown (autoConfirm testMode : Bool)
    (numCaseFolders : Nat) : Bool :=
  !autoConfirm && !testMode && decide (1 < numCaseFolders)

/-- Whether the recovery `run` reaches its `input(...)` prompt: only
outside list-only mode, with a nonempty filtered item list, without
`--yes`, and outside test mode.  The recovery run always concerns the
single case given on the command line. -/
def recovery_prompt_shown (listOnly : Bool) (numFilteredItems : Nat)
    (autoConfirm testMode : Bool) : Bool :=
  !listOnly && decide (0 < numFilteredItems) && !autoConfirm && !testMode

/-! ### Helper lemmas -/

/-- Every element kept by `takeWhile` satisfies the predicate. -/
theorem takeWhile_all_sat {α : Type} (p : α → Bool) :
    ∀ l : List α, (l.takeWhile p).all p = true := by
  intro l
  induction l with
  | nil => rfl
  | cons a t ih =>
    by_cases h : p a = true
    · simp [List.takeWhile_cons, h, ih]
    · simp [List.takeWhile_cons, h]

/-- `takeWhile` keeps a list all of whose elements satisfy the
predicate. -/
theorem takeWhile_eq_self_of_all {α : Type} (p : α → Bool) :
    ∀ l : List α, l.all p = true → l.takeWhile p = l := by
  intro l
  induction l with
  | nil => intro _; rfl
  | cons a t ih =>
    intro h
    rw [List.all_cons, Bool.and_eq_true] at h
    obtain ⟨ha, ht⟩ := h
    simp [List.takeWhile_cons, ha, ih ht]

/-- `dropWhile` empties a list all of whose elements satisfy the
predicate. -/
theorem dropWhile_eq_nil_of_all {α : Type} (p : α → Bool) :
    ∀ l : List α, l.all p = true → l.dropWhile p = [] := by
  intro l
  induction l with
  | nil => intro _; rfl
  | cons a t ih =>
    intro h
    rw [List.all_cons, Bool.and_eq_true] at h
    obtain ⟨ha, ht⟩ := h
    simp [List.dropWhile_cons, ha, ih ht]

/-- `takeWhile` over a satisfying list followed by one failing element
keeps exactly the satisfying list. -/
theorem takeWhile_append_stop {α : Type} (p : α → Bool) (c : α)
    (hc : p c = false) :
    ∀ l : List α, l.all p = true → (l ++ [c]).takeWhile p = l := by
  intro l
  induction l with
  | nil => intro _; simp [List.takeWhile_cons, hc]
  | cons a t ih =>
    intro h
    rw [List.all_cons, Bool.and_eq_true] at h
    obtain ⟨ha, ht⟩ := h
    simp [List.takeWhile_cons, ha, ih ht]

/-- `dropWhile` over a satisfying list followed by one failing element
drops exactly the satisfying list. -/
theorem dropWhile_append_stop {α : Type} (p : α → Bool) (c : α)
    (hc : p c = false) :
    ∀ l : List α, l.all p = true → (l ++ [c]).dropWhile p = [c] := by
  intro l
  induction l with
  | nil => intro _; simp [List.dropWhile_cons, hc]
  | cons a t ih =>
    intro h
    rw [List.all_cons, Bool.and_eq_true] at h
    obtain ⟨ha, ht⟩ := h
    simp [List.dropWhile_cons, ha, ih ht]

/-- Rebuilding a string from its character list is the identity. -/
theorem stringMk_toList (s : String) : String.mk s.toList = s := rfl

/-- A test-mode `delete_data_files` pass issues no remote calls. -/
theorem delete_data_files_test_calls (ok : String → Bool) :
    ∀ files : List FileInfo, (delete_data_files true ok files).2.2.2 = [] := by
  intro files
  induction files with
  | nil => rfl
  | cons f rest ih => simp [delete_data_files, ih]

/-- When every file delete succeeds, a live `delete_data_files` pass
produces the same deleted-count, deleted-bytes and error deltas as a
test-mode pass. -/
theorem delete_data_files_all_ok (ok : String → Bool) :
    ∀ files : List FileInfo, (∀ f ∈ files, ok f.id = true) →
      (delete_data_files false ok files).1 = (delete_data_files true ok files).1
      ∧ (delete_data_files false ok files).2.1
        = (delete_data_files true ok files).2.1
      ∧ (delete_data_files false ok files).2.2.1
        = (delete_data_files true ok files).2.2.1 := by
  intro files
  induction files with
  | nil => intro _; exact ⟨rfl, rfl, rfl⟩
  | cons f rest ih =>
    intro h
    have hf : ok f.id = true := h f (List.mem_cons_self f rest)
    have hrest := ih (fun g hg => h g (List.mem_cons_of_mem f hg))
    simp [delete_data_files, hf, hrest.1, hrest.2.1, hrest.2.2]

/-- The move step never issues a file-deletion call. -/
theorem move_calls_no_delete (testMode : Bool) (mo : MoveOutcome)
    (folderId : String) (completedFolderId : Option String) (f : String) :
    MutationCall.deleteFile f ∉
      (move_folder_to_completed testMode mo folderId completedFolderId).2.2 := by
  cases testMode <;> cases completedFolderId <;> cases mo <;>
    simp [move_folder_to_completed, optTruthy] <;>
    split <;> simp

/-- A live move step that reports success issued exactly one folder-move
call. -/
theorem move_live_success_calls (mo : MoveOutcome) (folderId : String)
    (completedFolderId : Option String) :
    (move_folder_to_completed false mo folderId completedFolderId).1 = true →
    ∃ c, (move_folder_to_completed false mo folderId completedFolderId).2.2
      = [MutationCall.moveFolder folderId c] := by
  intro h
  cases completedFolderId with
  | none => simp [move_folder_to_completed, optTruthy] at h
  | some c =>
    by_cases hc : c = ""
    · simp [move_folder_to_completed, optTruthy, hc] at h
    · cases mo with
      | success =>
        exact ⟨c, by simp [move_folder_to_completed, optTruthy, hc]⟩
      | nameInUse => simp [move_folder_to_completed, optTruthy, hc] at h
      | otherError => simp [move_folder_to_completed, optTruthy, hc] at h

/-- A test-mode per-case pass issues no remote calls at all. -/
theorem process_test_calls (env : CleanupEnv) (isReady : Bool)
    (dataFiles : List FileInfo) (folderId : String)
    (completedFolderId : Option String) :
    (process_case_folder true env isReady dataFiles folderId
      completedFolderId).2.1 = [] := by
  cases isReady with
  | false => rfl
  | true =>
    cases dataFiles with
    | nil => simp [process_case_folder, move_folder_to_completed]
    | cons f rest =>
      simp [process_case_folder, move_folder_to_completed,
        delete_data_files_test_calls]

/-! ### Claim theorems -/

/-- C2: For every file name, classification is a pure function of the
lowercased extension; every extension in the fixed data set is classified
deletable, and every extension in the fixed document set as well as every
unrecognized extension is classified retained. -/
theorem classification_by_extension :
    (∀ n₁ n₂ : String, lowerExt n₁ = lowerExt n₂ →
      classify_file n₁ = classify_file n₂)
    ∧ (∀ n : String, lowerExt n ∈ DATA_FILE_EXTENSIONS →
        classify_file n = FileClass.data)
    ∧ (∀ n : String, lowerExt n ∈ DOCUMENT_EXTENSIONS →
        classify_file n = FileClass.document)
    ∧ (∀ n : String, lowerExt n ∉ DATA_FILE_EXTENSIONS →
        classify_file n = FileClass.document) := by
  have hdisj : ∀ s ∈ DOCUMENT_EXTENSIONS, s ∉ DATA_FILE_EXTENSIONS := by decide
  refine ⟨?_, ?_, ?_, ?_⟩
  · intro n₁ n₂ h
    unfold classify_file
    rw [h]
  · intro n h
    unfold classify_file classify_extension
    rw [if_pos h]
  · intro n h
    unfold classify_file classify_extension
    rw [if_neg (hdisj _ h), if_pos h]
  · intro n h
    unfold classify_file classify_extension
    rw [if_neg h]
    by_cases hD : lowerExt n ∈ DOCUMENT_EXTENSIONS
    · rw [if_pos hD]
    · rw [if_neg hD]

/-- Witness for C2 at concrete file names: a data extension, a document
extension and an unrecognized extension. -/
theorem classification_by_extension_witness :
    lowerExt "Data.CSV" = ".csv"
    ∧ classify_file "Data.CSV" = FileClass.data
    ∧ classify_file "paper.PDF" = FileClass.document
    ∧ classify_file "weird.xyz" = FileClass.document :=
  ⟨by decide,
   classification_by_extension.2.1 "Data.CSV" (by decide),
   classification_by_extension.2.2.1 "paper.PDF" (by decide),
   classification_by_extension.2.2.2 "weird.xyz" (by decide)⟩

/-- C6: the fuzzy folder-name matcher accepts "7712" against
"aearep-7712" in both directions, rejects "aearep-7712" against
"aearep-9999", and — the unguarded substring containment — accepts the
short alias "77" against "7712". -/
theorem fuzzy_name_matching_cases :
    matches_folder_name "7712" "aearep-7712" = true
    ∧ matches_folder_name "aearep-7712" "7712" = true
    ∧ matches_folder_name "aearep-7712" "aearep-9999" = false
    ∧ matches_folder_name "7712" "77" = true := by
  decide

/-- C7: the tracker numeric-field cleaner sends the float 1234.0 and the
string "1234.0" both to "1234", and None to None. -/
theorem numeric_field_cleaning_cases :
    clean_jira_numeric_field (PyVal.pyFloat 1234) = some "1234"
    ∧ clean_jira_numeric_field (PyVal.pyStr "1234.0") = some "1234"
    ∧ clean_jira_numeric_field PyVal.pyNone = none := by
  decide

/-- C8 counterexample: with helper stdout "ready\n", the returned
explanation is the stripped text "ready", not the helper's standard
output itself, so the claim's description of the explanation text fails
as stated. -/
theorem readiness_explanation_counterexample :
    check_jira_purge_status false true
      (HelperResult.exited 0 "ready\n" "") = some (true, "ready")
    ∧ "ready" ≠ "ready\n" := by
  exact ⟨by decide, by decide⟩

/-- C8 (amended): the readiness check returns ready exactly when the
helper exits with code zero, a timeout yields not-ready with explanation
"Timeout", and the returned explanation is the helper's standard output
stripped of surrounding whitespace, or its stripped standard error when
standard output is empty. -/
theorem readiness_check_contract :
    (∀ (code : Int) (out err : String),
      check_jira_purge_status false true (HelperResult.exited code out err)
        = some (decide (code = 0),
            if out = "" then pyStrip err else pyStrip out))
    ∧ check_jira_purge_status false true HelperResult.timedOut
        = some (false, "Timeout")
    ∧ (∀ msg : String,
        check_jira_purge_status false true (HelperResult.raised msg)
          = some (false, msg)) :=
  ⟨fun _ _ _ => rfl, rfl, fun _ => rfl⟩

/-- C9 counterexample: a mutating recovery run targets a single case by
construction, yet with neither auto-confirm nor dry-run set and one
matched item the prompt is still shown, so the single-case bypass claimed
for both workflows fails for the recovery workflow. -/
theorem recovery_prompt_counterexample :
    recovery_prompt_shown false 1 false false = true := by
  decide

/-- C9 (amended): the cleanup prompt appears exactly without auto-confirm,
outside dry-run mode, and with more than one case folder; the recovery
prompt appears exactly outside list-only mode, with a nonempty filtered
item set, without auto-confirm and outside dry-run mode — the recovery
workflow has no single-case bypass because it always targets one case. -/
theorem confirmation_prompt_conditions :
    (∀ (a t : Bool) (n : Nat),
      cleanup_prompt_shown a t n = true ↔ (a = false ∧ t = false ∧ 1 < n))
    ∧ (∀ (l : Bool) (m : Nat) (a t : Bool),
        recovery_prompt_shown l m a t = true
          ↔ (l = false ∧ 0 < m ∧ a = false ∧ t = false)) := by
  constructor
  · intro a t n
    cases a <;> cases t <;> simp [cleanup_prompt_shown]
  · intro l m a t
    cases l <;> cases a <;> cases t <;> simp [recovery_prompt_shown]

/-- C3: membership in the filtered trashed-item list is exactly the
conjunction of the date filter, the user filter and the
folder-association criteria, so failing any one of them (deleted before
the cutoff, deleted by another user, or matching no association rule)
excludes the item. -/
theorem trashed_filter_conjunctive :
    ∀ (parse : String → Option Int) (cutoff : Int)
      (folderId folderName : Option String) (userFilter : String)
      (items : List TrashedItem) (item : TrashedItem),
      item ∈ filter_trashed_items parse cutoff folderId folderName
        userFilter items
      ↔ (item ∈ items
         ∧ passes_date_filter parse cutoff item = true
         ∧ passes_user_filter userFilter item = true
         ∧ matches_folder_criteria folderId folderName item = true) := by
  intro parse cutoff folderId folderName userFilter items item
  simp [filter_trashed_items, keep_trashed_item, List.mem_filter,
    Bool.and_eq_true, and_assoc]

/-- C10: missing metadata never excludes an item: a record without a
deletion timestamp or with an unparseable timestamp passes the date
filter, and a record without deleting-user information passes the user
filter. -/
theorem missing_metadata_passes_filters :
    ∀ (parse : String → Option Int) (cutoff : Int) (userFilter : String)
      (item : TrashedItem),
      (item.trashedAt = none → passes_date_filter parse cutoff item = true)
      ∧ (∀ s, item.trashedAt = some s → parse s = none →
          passes_date_filter parse cutoff item = true)
      ∧ (item.trashedBy = none →
          passes_user_filter userFilter item = true) := by
  intro parse cutoff userFilter item
  refine ⟨?_, ?_, ?_⟩
  · intro h
    simp [passes_date_filter, h]
  · intro s h1 h2
    by_cases hs : s = ""
    · simp [passes_date_filter, h1, hs]
    · simp [passes_date_filter, h1, hs, h2]
  · intro h
    by_cases hu : userFilter = ""
    · simp [passes_user_filter, hu]
    · simp [passes_user_filter, hu, h]

/-- Witness for C10 at concrete items: one with no timestamp and no
deleting user, one with an unparseable timestamp. -/
theorem missing_metadata_passes_filters_witness :
    passes_date_filter (fun _ => none) 0
      ⟨"1", "a.csv", "file", 3, none, none, none, none⟩ = true
    ∧ passes_user_filter "aeadata"
        ⟨"1", "a.csv", "file", 3, none, none, none, none⟩ = true
    ∧ passes_date_filter (fun _ => none) 0
        ⟨"2", "b.csv", "file", 3, some "not-a-date", none, none, none⟩
        = true :=
  ⟨(missing_metadata_passes_filters (fun _ => none) 0 "aeadata"
      ⟨"1", "a.csv", "file", 3, none, none, none, none⟩).1 rfl,
   (missing_metadata_passes_filters (fun _ => none) 0 "aeadata"
      ⟨"1", "a.csv", "file", 3, none, none, none, none⟩).2.2 rfl,
   (missing_metadata_passes_filters (fun _ => none) 0 "aeadata"
      ⟨"2", "b.csv", "file", 3, some "not-a-date", none, none, none⟩).2.1
     "not-a-date" rfl rfl⟩

/-- C1: for every processed case, any file-deletion call is preceded by
the folder-move call (the move is the first mutating call whenever a
deletion occurs), and whenever the move step reports failure the per-case
deleted-file count is zero and no file-deletion call is made. -/
theorem move_before_delete :
    ∀ (testMode : Bool) (env : CleanupEnv) (isReady : Bool)
      (dataFiles : List FileInfo) (folderId : String)
      (completedFolderId : Option String),
      (∀ f, MutationCall.deleteFile f ∈
          (process_case_folder testMode env isReady dataFiles folderId
            completedFolderId).2.1 →
        ∃ c, (process_case_folder testMode env isReady dataFiles folderId
            completedFolderId).2.1.head?
          = some (MutationCall.moveFolder folderId c))
      ∧ ((move_folder_to_completed testMode env.moveOutcome folderId
            completedFolderId).1 = false →
          (process_case_folder testMode env isReady dataFiles folderId
            completedFolderId).1.files_deleted = 0
          ∧ ∀ f, MutationCall.deleteFile f ∉
              (process_case_folder testMode env isReady dataFiles folderId
                completedFolderId).2.1) := by
  intro tm env r files fid cid
  constructor
  · intro f hf
    cases tm with
    | true =>
      rw [process_test_calls] at hf
      simp at hf
    | false =>
      cases r with
      | false => simp [process_case_folder] at hf
      | true =>
        by_cases h1 :
          (move_folder_to_completed false env.moveOutcome fid cid).1 = true
        · obtain ⟨c, hcall⟩ :=
            move_live_success_calls env.moveOutcome fid cid h1
          refine ⟨c, ?_⟩
          cases files with
          | nil => simp [process_case_folder, h1, hcall]
          | cons g rest => simp [process_case_folder, h1, hcall]
        · have h1' :
            (move_folder_to_completed false env.moveOutcome fid cid).1
              = false := by
            simpa using h1
          exfalso
          have hcalls :
            (process_case_folder false env true files fid cid).2.1
              = (move_folder_to_completed false env.moveOutcome fid cid).2.2
            := by
            simp [process_case_folder, h1']
          rw [hcalls] at hf
          exact move_calls_no_delete false env.moveOutcome fid cid f hf
  · intro hmv
    cases r with
    | false =>
      constructor
      · simp [process_case_folder, zeroStats]
      · intro f
        simp [process_case_folder]
    | true =>
      constructor
      · simp [process_case_folder, hmv, zeroStats]
      · intro f
        have hcalls :
          (process_case_folder tm env true files fid cid).2.1
            = (move_folder_to_completed tm env.moveOutcome fid cid).2.2 := by
          simp [process_case_folder, hmv]
        rw [hcalls]
        exact move_calls_no_delete tm env.moveOutcome fid cid f

/-- Witness for C1 at concrete inputs: a live case whose first mutating
call is the folder move, and a live case whose move fails (no archive
folder) where no deletion counter advances. -/
theorem move_before_delete_witness :
    (MutationCall.deleteFile "f1" ∈
      (process_case_folder false ⟨fun _ => true, MoveOutcome.success⟩ true
        [⟨"f1", "a.csv", 10⟩] "F" (some "C")).2.1
     ∧ ∃ c,
        (process_case_folder false ⟨fun _ => true, MoveOutcome.success⟩ true
          [⟨"f1", "a.csv", 10⟩] "F" (some "C")).2.1.head?
          = some (MutationCall.moveFolder "F" c))
    ∧ ((move_folder_to_completed false MoveOutcome.nameInUse "F" none).1
        = false
       ∧ (process_case_folder false ⟨fun _ => true, MoveOutcome.nameInUse⟩
            true [⟨"f1", "a.csv", 10⟩] "F" none).1.files_deleted = 0) :=
  ⟨⟨by decide,
    (move_before_delete false ⟨fun _ => true, MoveOutcome.success⟩ true
      [⟨"f1", "a.csv", 10⟩] "F" (some "C")).1 "f1" (by decide)⟩,
   ⟨by decide,
    ((move_before_delete false ⟨fun _ => true, MoveOutcome.nameInUse⟩ true
      [⟨"f1", "a.csv", 10⟩] "F" none).2 (by decide)).1⟩⟩

/-- C5: when no remote call fails (every file delete succeeds, the move
succeeds, the archive folder id is available), a dry-run pass produces
exactly the same statistics delta as a live pass over the same case,
while issuing no mutating remote call. -/
theorem dry_run_matches_live_run :
    ∀ (env : CleanupEnv) (isReady : Bool) (dataFiles : List FileInfo)
      (folderId c : String),
      (∀ f ∈ dataFiles, env.deleteOk f.id = true) →
      env.moveOutcome = MoveOutcome.success →
      c ≠ "" →
      (process_case_folder true env isReady dataFiles folderId (some c)).1
        = (process_case_folder false env isReady dataFiles folderId
            (some c)).1
      ∧ (process_case_folder true env isReady dataFiles folderId
          (some c)).2.1 = [] := by
  intro env r files fid c hdel hmo hc
  refine ⟨?_, process_test_calls env r files fid (some c)⟩
  cases r with
  | false => rfl
  | true =>
    have hd := delete_data_files_all_ok env.deleteOk files hdel
    cases files with
    | nil =>
      simp [process_case_folder, move_folder_to_completed, optTruthy, hmo, hc]
    | cons f rest =>
      simp [process_case_folder, move_folder_to_completed, optTruthy, hmo,
        hc, hd.1, hd.2.1, hd.2.2]

/-- Witness for C5 at a concrete case: one data file, all remote calls
succeeding. -/
theorem dry_run_matches_live_run_witness :
    (∀ f ∈ [(⟨"f1", "a.csv", 10⟩ : FileInfo)],
      (fun (_ : String) => true) f.id = true)
    ∧ (process_case_folder true ⟨fun _ => true, MoveOutcome.success⟩ true
        [⟨"f1", "a.csv", 10⟩] "F" (some "C")).1
      = (process_case_folder false ⟨fun _ => true, MoveOutcome.success⟩ true
          [⟨"f1", "a.csv", 10⟩] "F" (some "C")).1
    ∧ (process_case_folder true ⟨fun _ => true, MoveOutcome.success⟩ true
        [⟨"f1", "a.csv", 10⟩] "F" (some "C")).2.1 = [] :=
  ⟨fun _ _ => rfl,
   (dry_run_matches_live_run ⟨fun _ => true, MoveOutcome.success⟩ true
      [⟨"f1", "a.csv", 10⟩] "F" "C" (fun _ _ => rfl) rfl
      (by decide)).1,
   (dry_run_matches_live_run ⟨fun _ => true, MoveOutcome.success⟩ true
      [⟨"f1", "a.csv", 10⟩] "F" "C" (fun _ _ => rfl) rfl
      (by decide)).2⟩

/-- Unfolding of `match_case_folder` into its condition tree. -/
theorem match_case_folder_eq (name : String) :
    match_case_folder name =
      if (name.toList.take 7).map Char.toLower = "aearep-".toList then
        if (name.toList.drop 7).takeWhile Char.isDigit = [] then none
        else if (name.toList.drop 7).dropWhile Char.isDigit = []
            ∨ (name.toList.drop 7).dropWhile Char.isDigit = ['\n'] then
          some (String.mk ((name.toList.drop 7).takeWhile Char.isDigit))
        else none
      else none := rfl

/-- C4 counterexample: the Python `$` anchor also matches just before a
trailing newline, so the matcher accepts "aearep-12\n", which is not of
the claimed form prefix-digits. -/
theorem case_folder_matcher_counterexample :
    match_case_folder "aearep-12\n" = some "12"
    ∧ spec_case_accepts "aearep-12\n" = false := by
  decide

/-- C4 (amended): the matcher accepts exactly the names of the form
prefix-digits — with the prefix compared case-insensitively — optionally
followed by one trailing newline (an artifact of the regex end anchor),
extracting the digit run; "aearep-12a" and "otherprefix-12" are
rejected; and the discovered case-folder list is sorted ascending by
numeric case id. -/
theorem case_folder_matcher_contract :
    (∀ name ds : String, match_case_folder name = some ds ↔
      (SpecCaseName name ds ∨ SpecCaseNameNl name ds))
    ∧ match_case_folder "aearep-12a" = none
    ∧ match_case_folder "otherprefix-12" = none
    ∧ (∀ (items : List BoxItem) (specific : Option String),
        List.Sorted caseNumLe (find_case_folders items specific)) := by
  refine ⟨?_, by decide, by decide, ?_⟩
  · intro name ds
    constructor
    · intro h
      rw [match_case_folder_eq] at h
      split_ifs at h with hp hds htl
      have hmk : ds = String.mk ((name.toList.drop 7).takeWhile
          Char.isDigit) := (Option.some.inj h).symm
      subst hmk
      rcases htl with h0 | h0
      · left
        refine ⟨hp, ?_, hds, ?_⟩
        · have hsplit := List.takeWhile_append_dropWhile
            (p := Char.isDigit) (l := name.toList.drop 7)
          rw [h0, List.append_nil] at hsplit
          exact hsplit.symm
        · exact takeWhile_all_sat Char.isDigit (name.toList.drop 7)
      · right
        refine ⟨hp, ?_, hds, ?_⟩
        · have hsplit := List.takeWhile_append_dropWhile
            (p := Char.isDigit) (l := name.toList.drop 7)
          rw [h0] at hsplit
          exact hsplit.symm
        · exact takeWhile_all_sat Char.isDigit (name.toList.drop 7)
    · rintro (⟨hp, hdrop, hne, hall⟩ | ⟨hp, hdrop, hne, hall⟩)
      · rw [match_case_folder_eq, if_pos hp, hdrop,
          takeWhile_eq_self_of_all Char.isDigit ds.toList hall,
          dropWhile_eq_nil_of_all Char.isDigit ds.toList hall,
          if_neg hne, if_pos (Or.inl rfl), stringMk_toList]
      · rw [match_case_folder_eq, if_pos hp, hdrop,
          takeWhile_append_stop Char.isDigit '\n' (by decide) ds.toList hall,
          dropWhile_append_stop Char.isDigit '\n' (by decide) ds.toList hall,
          if_neg hne, if_pos (Or.inr rfl), stringMk_toList]
  · intro items specific
    simp only [find_case_folders]
    exact List.sorted_insertionSort caseNumLe _
